import Mathlib

/-!
Verification of the DDPG agent in `mountain_car/ddpg.py`.

Embedding choices:
* A numpy 1-D array ("tensor") is a `List ℚ`; float arithmetic is embedded as
  exact rational arithmetic.
* A Keras model's weight list (`model.get_weights()`) is a `Params := List Tensor`.
  `np.array` over such a ragged list is an object array: scalar multiplication maps
  over the entries, and addition is elementwise with numpy 1-D broadcasting
  (equal lengths, or one side of length one).
* The four function approximators' forward/backward passes live outside this
  repository; they are abstracted as a `NetOps` record of function parameters.
* Randomness (exploration-noise samples, replay-sampling indices) is passed in
  explicitly as data.
-/

deriving instance DecidableEq for Except

namespace DDPGSpec

/-- A numpy 1-D array of floats, embedded as a list of rationals. -/
abbrev Tensor := List ℚ

/-- A model's weight list, as returned by `model.get_weights()`. -/
abbrev Params := List Tensor

/-- Elementwise subtraction of two same-length tensors (numpy `a - b`). -/
def tsub (a b : Tensor) : Tensor := List.zipWith (fun x y => x - y) a b

/-- Elementwise division of two same-length tensors (numpy `a / b`). -/
def tdiv (a b : Tensor) : Tensor := List.zipWith (fun x y => x / y) a b

/-- Scalar multiplication of a tensor (numpy `c * a`). -/
def smul (c : ℚ) (t : Tensor) : Tensor := t.map (fun x => c * x)

/-- numpy addition of two 1-D arrays with broadcasting: equal lengths add
elementwise; a length-one array broadcasts against the other; any other
length combination raises (`none`). -/
def bAdd (a b : Tensor) : Option Tensor :=
  if a.length = b.length then some (List.zipWith (fun x y => x + y) a b)
  else
    match a, b with
    | [x], _ => some (b.map (fun y => x + y))
    | _, [y] => some (a.map (fun x => x + y))
    | _, _ => none

/-- Elementwise sum of two object arrays of tensors (numpy `A + B` on
object arrays of the same outer length); `none` when the outer lengths
differ or some entry pair fails to broadcast. -/
def objAdd : Params → Params → Option Params
  | [], [] => some []
  | a :: as, b :: bs =>
    match bAdd a b, objAdd as bs with
    | some c, some cs => some (c :: cs)
    | _, _ => none
  | _, _ => none

/-- `np.clip(x, lo, hi)` on scalars: `min(hi, max(x, lo))`. -/
def npClip (x lo hi : ℚ) : ℚ := min hi (max x lo)

/-- Three-list `zipWith`, truncating at the shortest list. -/
def zipWith3 (f : α → β → γ → δ) : List α → List β → List γ → List δ
  | a :: as, b :: bs, c :: cs => f a b c :: zipWith3 f as bs cs
  | _, _, _ => []

/-- The shape of each parameter tensor in a weight list. -/
def shapes (p : Params) : List ℕ := p.map List.length

/-- Modelled from the spec: the approximators' set-parameters contract
(spec §6) — "write all parameter tensors, preserving identifier-to-shape
mapping". `model.set_weights(new)` replaces all parameter tensors at once
when the provided shapes match the model's current shapes, and fails
without writing anything otherwise. The concrete Keras model class is not
part of this repository. -/
def set_weights (current new : Params) : Except String Params :=
  if shapes new = shapes current then Except.ok new
  else Except.error "set_weights: shape mismatch"

/-- One replay transition, as stored by `ReplayBuffer.add`
(`state` and `next_state` already normalized by `DDPG.step`). -/
structure Experience where
  state : Tensor
  action : Tensor
  reward : ℚ
  next_state : Tensor
  done : Bool
  deriving Repr, DecidableEq

instance : Inhabited Experience := ⟨⟨[], [], 0, [], false⟩⟩

/-- Modelled from the spec: `replay_buffer.py` is not under `src/`.
Spec §3/§4.1: a fixed-capacity ring buffer of transitions; `add` always
succeeds, evicting the oldest transitions FIFO once `length == capacity`. -/
structure ReplayBuffer where
  buffer_size : ℕ
  batch_size : ℕ
  memory : List Experience
  deriving Repr, DecidableEq

/-- Modelled from the spec (§4.1): `add` appends a transition, evicting from
the head so that at most `buffer_size` transitions remain. -/
def ReplayBuffer.add (rb : ReplayBuffer) (e : Experience) : ReplayBuffer :=
  let m := rb.memory ++ [e]
  { rb with memory := if rb.buffer_size < m.length then m.drop (m.length - rb.buffer_size) else m }

/-- `len(self.memory)`. -/
def ReplayBuffer.length (rb : ReplayBuffer) : ℕ := rb.memory.length

/-- Modelled from the spec (§4.1): `sample` "selects `batch_size` transitions
independently and uniformly at random from the current contents. Fails with
`InsufficientDataError` if called when length < batch_size". The random
draws are supplied explicitly as natural-number indices, reduced modulo the
current length; exactly `batch_size` transitions are returned on success. -/
def ReplayBuffer.sample (rb : ReplayBuffer) (draws : List ℕ) : Except String (List Experience) :=
  if rb.length < rb.batch_size then Except.error "InsufficientDataError"
  else Except.ok ((List.range rb.batch_size).map
    (fun k => rb.memory.getD (draws.getD k 0 % rb.memory.length) default))

/-- The externally implemented approximator operations (`actor.py`,
`critic.py` are collaborators outside this repository's algorithmic core):
forward passes, one training step on a weight set, and the critic's
gradient of its output with respect to the action input. -/
structure NetOps where
  actor_predict : Params → Tensor → Tensor
  critic_predict : Params → Tensor → Tensor → ℚ
  critic_train : Params → List Tensor → List Tensor → List ℚ → Params
  action_gradients : Params → List Tensor → List Tensor → List Tensor
  actor_train : Params → List Tensor → List Tensor → Params

/-- The `DDPG` agent's state: environment bounds, the four weight sets,
replay memory and hyperparameters (`DDPG.__init__`). -/
structure Agent where
  state_low : Tensor
  state_high : Tensor
  state_range : Tensor
  action_low : Tensor
  action_high : Tensor
  action_range : Tensor
  actor_local : Params
  actor_target : Params
  critic_local : Params
  critic_target : Params
  buffer_size : ℕ
  batch_size : ℕ
  memory : ReplayBuffer
  gamma : ℚ
  tau_actor : ℚ
  tau_critic : ℚ
  deriving DecidableEq

/-- `DDPG.__init__`: the four networks are freshly constructed with
(externally) randomly initialized weights — passed here as the four
`*_w` arguments — and then both target models' weights are overwritten
with the corresponding local models' weights (`set_weights(get_weights())`,
lines 36–39). The ranges, noise/replay/algorithm hyperparameters are fixed
as in lines 41–56. -/
def DDPG.init (state_low state_high action_low action_high : Tensor)
    (actor_local_w actor_target_w0 critic_local_w critic_target_w0 : Params) : Agent :=
  { state_low := state_low
    state_high := state_high
    state_range := tsub state_high state_low
    action_low := action_low
    action_high := action_high
    action_range := tsub action_high action_low
    actor_local := actor_local_w
    actor_target := actor_local_w
    critic_local := critic_local_w
    critic_target := critic_local_w
    buffer_size := 10000
    batch_size := 128
    memory := { buffer_size := 10000, batch_size := 128, memory := [] }
    gamma := 0.999
    tau_actor := 0.1
    tau_critic := 0.5 }

/-- `DDPG.preprocess_state`: `(state - self.state_low) / self.state_range * 2 - 1`. -/
def DDPG.preprocess_state (a : Agent) (state : Tensor) : Tensor :=
  (tdiv (tsub state a.state_low) a.state_range).map (fun x => x * 2 - 1)

/-- `DDPG.act` (lines 77–84): normalize the state, forward-pass through the
local actor, damp by `.2`, add one exploration-noise sample, clip to the
action bounds; return the clipped noisy action and the pure action. The
noise sample drawn from `self.noise.sample()` is passed in as `noise`. -/
def DDPG.act (ops : NetOps) (a : Agent) (state : Tensor) (noise : Tensor) :
    Tensor × Tensor :=
  let st := DDPG.preprocess_state a state
  let pure_action := ops.actor_predict a.actor_local st
  let action := zipWith3 npClip
    (List.zipWith (fun p n => p * 0.2 + n) pure_action noise)
    a.action_low a.action_high
  (action, pure_action)

/-- `DDPG.soft_update` (lines 124–133): read both models' weight lists,
assert that they have the same number of parameter arrays, form
`tau * local + (1 - tau) * target` as numpy object-array arithmetic, and
write the result into the target model. Returns the (unchanged) local
weights and the target model's new weights. -/
def DDPG.soft_update (local_model target_model : Params) (tau : ℚ) :
    Except String (Params × Params) :=
  let local_weights := local_model
  let target_weights := target_model
  if local_weights.length = target_weights.length then
    match objAdd (local_weights.map (smul tau)) (target_weights.map (smul (1 - tau))) with
    | some new_weights =>
      match set_weights target_model new_weights with
      | Except.ok t' => Except.ok (local_model, t')
      | Except.error e => Except.error e
    | none => Except.error "ValueError: operands could not be broadcast"
  else Except.error "AssertionError: Local and target model parameters must have the same size"

/-- `1 - dones` with `dones` cast to `uint8` (line 98): `True ↦ 1`, `False ↦ 0`. -/
def doneBit (d : Bool) : ℚ := if d then 1 else 0

/-- Lines 104–106: `actions_next = actor_target.predict(next_states)`;
`Q_targets_next = critic_target.predict([next_states, actions_next])`. -/
def qTargetsNext (ops : NetOps) (a : Agent) (next_states : List Tensor) : List ℚ :=
  let actions_next := next_states.map (ops.actor_predict a.actor_target)
  List.zipWith (fun s act => ops.critic_predict a.critic_target s act) next_states actions_next

/-- Line 109: `Q_targets = rewards + self.gamma * Q_targets_next * (1 - dones)`. -/
def tdTargets (gamma : ℚ) (rewards q_targets_next : List ℚ) (dones : List Bool) : List ℚ :=
  zipWith3 (fun r q d => r + gamma * q * (1 - doneBit d)) rewards q_targets_next dones

/-- `DDPG.learn` (lines 86–122): drop `None` entries, split the batch into
arrays, compute the TD targets, train the local critic toward them, compute
the action gradients from the (just-trained) local critic, train the local
actor with them, then soft-update the critic target and the actor target. -/
def DDPG.learn (ops : NetOps) (a : Agent) (experiences : List (Option Experience)) :
    Except String Agent :=
  let es := experiences.filterMap id
  let states := es.map Experience.state
  let actions := es.map Experience.action
  let rewards := es.map Experience.reward
  let dones := es.map Experience.done
  let next_states := es.map Experience.next_state
  let q_targets := tdTargets a.gamma rewards (qTargetsNext ops a next_states) dones
  let critic_local' := ops.critic_train a.critic_local states actions q_targets
  let action_grads := ops.action_gradients critic_local' states actions
  let actor_local' := ops.actor_train a.actor_local states action_grads
  match DDPG.soft_update critic_local' a.critic_target a.tau_critic with
  | Except.error e => Except.error e
  | Except.ok (_, critic_target') =>
    match DDPG.soft_update actor_local' a.actor_target a.tau_actor with
    | Except.error e => Except.error e
    | Except.ok (_, actor_target') =>
      Except.ok { a with critic_local := critic_local', actor_local := actor_local',
                         critic_target := critic_target', actor_target := actor_target' }

/-- `DDPG.step` (lines 66–75): normalize both states, store the transition,
and — if the post-insertion memory length exceeds `batch_size` — sample a
batch and learn from it. The sampling randomness is passed as `draws`. -/
def DDPG.step (ops : NetOps) (a : Agent) (state action : Tensor) (reward : ℚ)
    (next_state : Tensor) (done : Bool) (draws : List ℕ) : Except String Agent :=
  let st := DDPG.preprocess_state a state
  let ns := DDPG.preprocess_state a next_state
  let a' := { a with memory := a.memory.add ⟨st, action, reward, ns, done⟩ }
  if a.batch_size < a'.memory.length then
    match a'.memory.sample draws with
    | Except.ok exps => DDPG.learn ops a' (exps.map some)
    | Except.error e => Except.error e
  else Except.ok a'

/-! ### Helper lemmas on list indexing -/

theorem getD_map (f : α → β) (as : List α) (i : ℕ) (da : α) (db : β)
    (h : i < as.length) : (as.map f).getD i db = f (as.getD i da) := by
  induction as generalizing i with
  | nil => simp at h
  | cons x xs ih =>
    cases i with
    | zero => simp
    | succ j => simpa using ih j (by simpa using h)

theorem getD_zipWith (f : α → β → γ) (as : List α) (bs : List β) (i : ℕ)
    (da : α) (db : β) (dc : γ) (h1 : i < as.length) (h2 : i < bs.length) :
    (List.zipWith f as bs).getD i dc = f (as.getD i da) (bs.getD i db) := by
  induction as generalizing bs i with
  | nil => simp at h1
  | cons x xs ih =>
    cases bs with
    | nil => simp at h2
    | cons y ys =>
      cases i with
      | zero => simp
      | succ j => simpa using ih ys j (by simpa using h1) (by simpa using h2)

theorem zipWith3_getD (f : α → β → γ → δ) (as : List α) (bs : List β) (cs : List γ)
    (i : ℕ) (da : α) (db : β) (dc : γ) (dd : δ)
    (h1 : i < as.length) (h2 : i < bs.length) (h3 : i < cs.length) :
    (zipWith3 f as bs cs).getD i dd = f (as.getD i da) (bs.getD i db) (cs.getD i dc) := by
  induction as generalizing bs cs i with
  | nil => simp at h1
  | cons x xs ih =>
    cases bs with
    | nil => simp at h2
    | cons y ys =>
      cases cs with
      | nil => simp at h3
      | cons z zs =>
        cases i with
        | zero => simp [zipWith3]
        | succ j =>
          simpa [zipWith3] using ih ys zs j (by simpa using h1) (by simpa using h2)
            (by simpa using h3)

/-! ### C1: the TD regression target -/

/-- **C1.** In every call to `learn`, the TD target for each transition of the
batch equals `reward + gamma * Q_target(next_state, actor_target(next_state)) * (1 - done)`;
for a transition with `done = true` it equals `reward` exactly, independent of
the critic target's value estimate; and `learn` trains the local critic toward
exactly these targets. -/
theorem learn_td_target (ops : NetOps) (a : Agent)
    (experiences : List (Option Experience)) (i : ℕ)
    (hi : i < (experiences.filterMap id).length) :
    (tdTargets a.gamma ((experiences.filterMap id).map Experience.reward)
        (qTargetsNext ops a ((experiences.filterMap id).map Experience.next_state))
        ((experiences.filterMap id).map Experience.done)).getD i 0 =
      ((experiences.filterMap id).getD i default).reward
        + a.gamma
          * ops.critic_predict a.critic_target
              ((experiences.filterMap id).getD i default).next_state
              (ops.actor_predict a.actor_target
                ((experiences.filterMap id).getD i default).next_state)
          * (1 - doneBit ((experiences.filterMap id).getD i default).done)
    ∧ (((experiences.filterMap id).getD i default).done = true →
        (tdTargets a.gamma ((experiences.filterMap id).map Experience.reward)
            (qTargetsNext ops a ((experiences.filterMap id).map Experience.next_state))
            ((experiences.filterMap id).map Experience.done)).getD i 0 =
          ((experiences.filterMap id).getD i default).reward)
    ∧ ∀ a', DDPG.learn ops a experiences = Except.ok a' →
        a'.critic_local = ops.critic_train a.critic_local
          ((experiences.filterMap id).map Experience.state)
          ((experiences.filterMap id).map Experience.action)
          (tdTargets a.gamma ((experiences.filterMap id).map Experience.reward)
            (qTargetsNext ops a ((experiences.filterMap id).map Experience.next_state))
            ((experiences.filterMap id).map Experience.done)) := by
  set es := experiences.filterMap id with hes
  have hq : (qTargetsNext ops a (es.map Experience.next_state)).length
      = es.length := by
    simp [qTargetsNext]
  have hmain : (tdTargets a.gamma (es.map Experience.reward)
      (qTargetsNext ops a (es.map Experience.next_state))
      (es.map Experience.done)).getD i 0 =
      (es.getD i default).reward
        + a.gamma
          * ops.critic_predict a.critic_target (es.getD i default).next_state
              (ops.actor_predict a.actor_target (es.getD i default).next_state)
          * (1 - doneBit (es.getD i default).done) := by
    rw [tdTargets, zipWith3_getD _ _ _ _ i 0 0 false 0 (by simpa using hi)
      (by rw [hq]; exact hi) (by simpa using hi)]
    rw [getD_map _ _ _ default 0 hi, getD_map _ _ _ default false hi]
    have hqn : (qTargetsNext ops a (es.map Experience.next_state)).getD i 0 =
        ops.critic_predict a.critic_target (es.getD i default).next_state
          (ops.actor_predict a.actor_target (es.getD i default).next_state) := by
      rw [qTargetsNext]
      rw [getD_zipWith _ _ _ i [] [] 0 (by simpa using hi) (by simpa using hi)]
      rw [getD_map _ _ _ default [] hi,
        getD_map _ _ _ [] [] (by simpa using hi),
        getD_map _ _ _ default [] hi]
    rw [hqn]
  refine ⟨hmain, ?_, ?_⟩
  · intro hdone
    rw [hmain, hdone]
    simp [doneBit]
  · intro a' h
    simp only [DDPG.learn] at h
    split at h
    · exact absurd h (by simp)
    · split at h
      · exact absurd h (by simp)
      · rw [← hes] at h
        cases h
        rfl

/-! ### Soft-update helper lemmas -/

/-- The per-parameter interpolation `tau * local + (1 - tau) * target`. -/
def interpParams (tau : ℚ) (l t : Params) : Params :=
  List.zipWith (fun lw tw => List.zipWith (fun x y => tau * x + (1 - tau) * y) lw tw) l t

theorem bAdd_of_length_eq (a b : Tensor) (h : a.length = b.length) :
    bAdd a b = some (List.zipWith (fun x y => x + y) a b) := by
  simp [bAdd, h]

theorem objAdd_smul (tau sigma : ℚ) :
    ∀ p q : Params, shapes p = shapes q →
      objAdd (p.map (smul tau)) (q.map (smul sigma)) =
        some (List.zipWith (fun lw tw =>
          List.zipWith (fun x y => tau * x + sigma * y) lw tw) p q) := by
  intro p
  induction p with
  | nil =>
    intro q h
    cases q with
    | nil => rfl
    | cons y ys => simp [shapes] at h
  | cons x xs ih =>
    intro q h
    cases q with
    | nil => simp [shapes] at h
    | cons y ys =>
      simp only [shapes, List.map_cons, List.cons.injEq] at h
      have hx : (smul tau x).length = (smul sigma y).length := by
        simp [smul, h.1]
      simp only [List.map_cons, objAdd, bAdd_of_length_eq _ _ hx,
        ih ys h.2, List.zipWith_cons_cons]
      simp [smul, List.zipWith_map]

theorem shapes_interpParams (tau : ℚ) :
    ∀ p q : Params, shapes p = shapes q → shapes (interpParams tau p q) = shapes q := by
  intro p
  induction p with
  | nil =>
    intro q h
    cases q with
    | nil => rfl
    | cons y ys => simp [shapes] at h
  | cons x xs ih =>
    intro q h
    cases q with
    | nil => simp [shapes] at h
    | cons y ys =>
      simp only [shapes, List.map_cons, List.cons.injEq] at h
      simp only [interpParams, List.zipWith_cons_cons, shapes, List.map_cons,
        List.cons.injEq]
      constructor
      · simp [h.1]
      · simpa [interpParams, shapes] using ih ys h.2

theorem length_of_shapes_eq (p q : Params) (h : shapes p = shapes q) :
    p.length = q.length := by
  have := congrArg List.length h
  simpa [shapes] using this

/-- On shape-matched weight lists, `soft_update` succeeds and returns the
untouched local weights together with the interpolated target weights. -/
theorem soft_update_interp (l t : Params) (tau : ℚ) (h : shapes l = shapes t) :
    DDPG.soft_update l t tau = Except.ok (l, interpParams tau l t) := by
  have hlen := length_of_shapes_eq l t h
  have hsw : set_weights t (interpParams tau l t) =
      Except.ok (interpParams tau l t) := by
    simp [set_weights, shapes_interpParams tau l t h]
  simp only [DDPG.soft_update, if_pos hlen, objAdd_smul tau (1 - tau) l t h]
  show (match set_weights t (interpParams tau l t) with
    | Except.ok t' => Except.ok (l, t')
    | Except.error e => Except.error e) = Except.ok (l, interpParams tau l t)
  rw [hsw]

theorem interpParams_one :
    ∀ p q : Params, shapes p = shapes q → interpParams 1 p q = p := by
  intro p
  induction p with
  | nil => intro q h; simp [interpParams]
  | cons x xs ih =>
    intro q h
    cases q with
    | nil => simp [shapes] at h
    | cons y ys =>
      simp only [shapes, List.map_cons, List.cons.injEq] at h
      simp only [interpParams, List.zipWith_cons_cons, List.cons.injEq]
      constructor
      · have : ∀ (s u : Tensor), s.length = u.length →
            List.zipWith (fun a b => 1 * a + (1 - 1) * b) s u = s := by
          intro s
          induction s with
          | nil => intro u h; simp
          | cons a as iha =>
            intro u hu
            cases u with
            | nil => simp at hu
            | cons b bs =>
              simp only [List.zipWith_cons_cons, List.cons.injEq]
              exact ⟨by ring, iha bs (by simpa using hu)⟩
        exact this x y h.1
      · simpa [interpParams] using ih ys h.2

theorem interpParams_zero :
    ∀ p q : Params, shapes p = shapes q → interpParams 0 p q = q := by
  intro p
  induction p with
  | nil =>
    intro q h
    cases q with
    | nil => rfl
    | cons y ys => simp [shapes] at h
  | cons x xs ih =>
    intro q h
    cases q with
    | nil => simp [shapes] at h
    | cons y ys =>
      simp only [shapes, List.map_cons, List.cons.injEq] at h
      simp only [interpParams, List.zipWith_cons_cons, List.cons.injEq]
      constructor
      · have : ∀ (s u : Tensor), s.length = u.length →
            List.zipWith (fun a b => 0 * a + (1 - 0) * b) s u = u := by
          intro s
          induction s with
          | nil =>
            intro u h
            cases u with
            | nil => rfl
            | cons b bs => simp at h
          | cons a as iha =>
            intro u hu
            cases u with
            | nil => simp at hu
            | cons b bs =>
              simp only [List.zipWith_cons_cons, List.cons.injEq]
              exact ⟨by ring, iha bs (by simpa using hu)⟩
        exact this x y h.1
      · simpa [interpParams] using ih ys h.2

/-! ### C2: the soft-update rule -/

/-- **C2.** On shape-matched weight lists, `soft_update(local, target, tau)`
produces target weights `tau * local + (1 - tau) * target` per parameter and
leaves the local weights untouched; with `tau = 1` the target becomes exactly
the local weights, with `tau = 0` it is unchanged. -/
theorem soft_update_rule (l t : Params) (tau : ℚ) (h : shapes l = shapes t) :
    DDPG.soft_update l t tau = Except.ok (l, interpParams tau l t)
    ∧ (∀ i j, i < l.length → j < (l.getD i []).length →
        ((interpParams tau l t).getD i []).getD j 0 =
          tau * ((l.getD i []).getD j 0) + (1 - tau) * ((t.getD i []).getD j 0))
    ∧ DDPG.soft_update l t 1 = Except.ok (l, l)
    ∧ DDPG.soft_update l t 0 = Except.ok (l, t) := by
  refine ⟨soft_update_interp l t tau h, ?_, ?_, ?_⟩
  · intro i j hi hj
    have hlen := length_of_shapes_eq l t h
    have hti : i < t.length := hlen ▸ hi
    have hshape_i : (l.getD i []).length = (t.getD i []).length := by
      have h1 := getD_map List.length l i [] 0 hi
      have h2 := getD_map List.length t i [] 0 hti
      have := congrArg (fun s => s.getD i 0) h
      simp only [shapes] at this
      rw [h1, h2] at this
      exact this
    rw [interpParams, getD_zipWith _ _ _ i [] [] [] hi hti,
      getD_zipWith _ _ _ j 0 0 0 hj (hshape_i ▸ hj)]
  · rw [soft_update_interp l t 1 h, interpParams_one l t h]
  · rw [soft_update_interp l t 0 h, interpParams_zero l t h]

/-- Witness for C2 at concrete weight lists. -/
theorem soft_update_rule_witness :
    DDPG.soft_update [[(1 : ℚ), 2]] [[(3 : ℚ), 4]] (1/2) =
      Except.ok ([[(1 : ℚ), 2]], [[(2 : ℚ), 3]])
    ∧ DDPG.soft_update [[(1 : ℚ), 2]] [[(3 : ℚ), 4]] 1 =
      Except.ok ([[(1 : ℚ), 2]], [[(1 : ℚ), 2]])
    ∧ DDPG.soft_update [[(1 : ℚ), 2]] [[(3 : ℚ), 4]] 0 =
      Except.ok ([[(1 : ℚ), 2]], [[(3 : ℚ), 4]]) := by
  have h := soft_update_rule [[(1 : ℚ), 2]] [[(3 : ℚ), 4]] (1/2) (by decide)
  refine ⟨?_, h.2.2.1, h.2.2.2⟩
  rw [h.1]
  norm_num [interpParams]

/-! ### Concrete instances used by the witnesses -/

/-- Concrete approximator operations for witness instantiations. -/
def cOps : NetOps where
  actor_predict := fun _ s => s
  critic_predict := fun _ _ _ => 7
  critic_train := fun p _ _ _ => p
  action_gradients := fun _ s _ => s
  actor_train := fun p _ _ => p

/-- A concrete agent built by `DDPG.init`. -/
def cAgent : Agent := DDPG.init [0, 0] [2, 2] [-1] [1] [[1, 1]] [[5, 5]] [[3, 3]] [[6, 6]]

/-- A concrete sampled batch with one terminal transition and one `None`. -/
def cBatch : List (Option Experience) := [some ⟨[0, 0], [0], 5, [1, 1], true⟩, none]

/-- Witness for C1: on the concrete batch, whose only transition is terminal
with reward 5, the TD target computed in `learn` equals 5. -/
theorem learn_td_target_witness :
    (tdTargets cAgent.gamma ((cBatch.filterMap id).map Experience.reward)
      (qTargetsNext cOps cAgent ((cBatch.filterMap id).map Experience.next_state))
      ((cBatch.filterMap id).map Experience.done)).getD 0 0 = 5 := by
  have h := (learn_td_target cOps cAgent cBatch 0 (by decide)).2.1 (by decide)
  rw [h]
  rfl

/-! ### C3: state normalization -/

/-- **C3.** `preprocess_state` computes the elementwise affine map
`2 * (state - state_low) / (state_high - state_low) - 1`; for states lying
within the bounds it lands in `[-1, 1]`, hitting `-1` at `state_low` and `1`
at `state_high`. (`state_range` is `state_high - state_low`, as established
by `DDPG.__init__`.) -/
theorem preprocess_state_spec (a : Agent) (state : Tensor) (i : ℕ)
    (hrange : a.state_range = tsub a.state_high a.state_low)
    (hlh : a.state_high.length = a.state_low.length)
    (hsl : state.length = a.state_low.length)
    (hi : i < state.length)
    (hlt : a.state_low.getD i 0 < a.state_high.getD i 0)
    (hlo : a.state_low.getD i 0 ≤ state.getD i 0)
    (hhi : state.getD i 0 ≤ a.state_high.getD i 0) :
    (DDPG.preprocess_state a state).getD i 0 =
      2 * (state.getD i 0 - a.state_low.getD i 0)
        / (a.state_high.getD i 0 - a.state_low.getD i 0) - 1
    ∧ -1 ≤ (DDPG.preprocess_state a state).getD i 0
    ∧ (DDPG.preprocess_state a state).getD i 0 ≤ 1
    ∧ (DDPG.preprocess_state a a.state_low).getD i 0 = -1
    ∧ (DDPG.preprocess_state a a.state_high).getD i 0 = 1 := by
  have hlow : i < a.state_low.length := hsl ▸ hi
  have hhigh : i < a.state_high.length := by rw [hlh]; exact hlow
  have hrl : i < a.state_range.length := by
    rw [hrange]; simp only [tsub, List.length_zipWith]; omega
  have hval : ∀ (s : Tensor), s.length = a.state_low.length → i < s.length →
      (DDPG.preprocess_state a s).getD i 0 =
        (s.getD i 0 - a.state_low.getD i 0)
          / (a.state_high.getD i 0 - a.state_low.getD i 0) * 2 - 1 := by
    intro s hs his
    have hsub : i < (tsub s a.state_low).length := by
      simp only [tsub, List.length_zipWith]; omega
    have hdl : i < (tdiv (tsub s a.state_low) a.state_range).length := by
      simp only [tdiv, List.length_zipWith]; omega
    rw [DDPG.preprocess_state, getD_map _ _ _ 0 0 hdl, tdiv,
      getD_zipWith _ _ _ i 0 0 0 hsub hrl, tsub,
      getD_zipWith _ _ _ i 0 0 0 his hlow, hrange, tsub,
      getD_zipWith _ _ _ i 0 0 0 hhigh hlow]
  have hpos : 0 < a.state_high.getD i 0 - a.state_low.getD i 0 := by linarith
  have hmain := hval state hsl hi
  refine ⟨?_, ?_, ?_, ?_, ?_⟩
  · rw [hmain]; ring
  · rw [hmain]
    have h0 : 0 ≤ (state.getD i 0 - a.state_low.getD i 0)
        / (a.state_high.getD i 0 - a.state_low.getD i 0) :=
      div_nonneg (by linarith) hpos.le
    linarith
  · rw [hmain]
    have h1 : (state.getD i 0 - a.state_low.getD i 0)
        / (a.state_high.getD i 0 - a.state_low.getD i 0) ≤ 1 :=
      (div_le_one hpos).mpr (by linarith)
    linarith
  · rw [hval a.state_low rfl hlow]
    simp
  · rw [hval a.state_high hlh hhigh]
    rw [div_self hpos.ne']
    norm_num

/-- Witness for C3 on the concrete agent (`state_low = [0,0]`,
`state_high = [2,2]`) at the midpoint state `[1,1]`. -/
theorem preprocess_state_spec_witness :
    (DDPG.preprocess_state cAgent [1, 1]).getD 0 0 =
      2 * ((1 : ℚ) - 0) / (2 - 0) - 1
    ∧ -1 ≤ (DDPG.preprocess_state cAgent [1, 1]).getD 0 0
    ∧ (DDPG.preprocess_state cAgent [1, 1]).getD 0 0 ≤ 1
    ∧ (DDPG.preprocess_state cAgent cAgent.state_low).getD 0 0 = -1
    ∧ (DDPG.preprocess_state cAgent cAgent.state_high).getD 0 0 = 1 := by
  have h := preprocess_state_spec cAgent [1, 1] 0 rfl rfl rfl (by norm_num)
    (by norm_num [cAgent, DDPG.init]) (by norm_num [cAgent, DDPG.init])
    (by norm_num [cAgent, DDPG.init])
  refine ⟨?_, h.2.1, h.2.2.1, h.2.2.2.1, h.2.2.2.2⟩
  rw [h.1]
  norm_num [cAgent, DDPG.init]

/-! ### C4: action bound enforcement in act -/

theorem zipWith3_length (f : α → β → γ → δ) :
    ∀ (as : List α) (bs : List β) (cs : List γ),
      (zipWith3 f as bs cs).length = min as.length (min bs.length cs.length) := by
  intro as
  induction as with
  | nil => intro bs cs; simp [zipWith3]
  | cons a as ih =>
    intro bs cs
    cases bs with
    | nil => simp [zipWith3]
    | cons b bs =>
      cases cs with
      | nil => simp [zipWith3]
      | cons c cs =>
        simp only [zipWith3, List.length_cons, ih]
        omega

/-- **C4.** For every input state and every exploration-noise draw, the noisy
action returned by `act` (first component: the damped actor output plus noise,
clipped) lies elementwise within `[action_low, action_high]`, provided
`action_low ≤ action_high` elementwise. -/
theorem act_bounds (ops : NetOps) (a : Agent) (state noise : Tensor) (i : ℕ)
    (hbounds : ∀ j, j < a.action_low.length → j < a.action_high.length →
      a.action_low.getD j 0 ≤ a.action_high.getD j 0)
    (hi : i < ((DDPG.act ops a state noise).1).length) :
    a.action_low.getD i 0 ≤ ((DDPG.act ops a state noise).1).getD i 0
    ∧ ((DDPG.act ops a state noise).1).getD i 0 ≤ a.action_high.getD i 0 := by
  have hact : (DDPG.act ops a state noise).1 =
      zipWith3 npClip
        (List.zipWith (fun p n => p * 0.2 + n)
          (ops.actor_predict a.actor_local (DDPG.preprocess_state a state)) noise)
        a.action_low a.action_high := rfl
  rw [hact] at hi
  rw [zipWith3_length] at hi
  have hx : i < (List.zipWith (fun p n => p * 0.2 + n)
      (ops.actor_predict a.actor_local (DDPG.preprocess_state a state)) noise).length := by
    omega
  have hl : i < a.action_low.length := by omega
  have hh : i < a.action_high.length := by omega
  rw [hact, zipWith3_getD npClip _ _ _ i 0 0 0 0 hx hl hh]
  unfold npClip
  constructor
  · exact le_min (hbounds i hl hh) (le_max_right _ _)
  · exact min_le_left _ _

/-- Witness for C4: concrete agent with action bounds `[-1, 1]`, a noise draw
of `100` that would push the action far out of range. -/
theorem act_bounds_witness :
    cAgent.action_low.getD 0 0 ≤ ((DDPG.act cOps cAgent [1, 1] [100]).1).getD 0 0
    ∧ ((DDPG.act cOps cAgent [1, 1] [100]).1).getD 0 0 ≤ cAgent.action_high.getD 0 0 := by
  refine act_bounds cOps cAgent [1, 1] [100] 0 ?_ ?_
  · intro j hj1 hj2
    have hj : j = 0 := by
      simp only [cAgent, DDPG.init] at hj1
      simpa using hj1
    subst hj
    norm_num [cAgent, DDPG.init]
  · show 0 < (zipWith3 npClip _ _ _).length
    rw [zipWith3_length]
    norm_num [cAgent, DDPG.init, DDPG.preprocess_state, tsub, tdiv, cOps]

/-! ### C5: order of updates inside learn -/

/-- **C5.** Within a successful `learn` call: the local critic is trained
toward the TD targets first; the action gradient fed to the actor is computed
from the *post-update* local critic; the local actor is trained with that
gradient; and both targets are then soft-updated from the post-update local
networks (critic target, then actor target) against the pre-call targets. -/
theorem learn_update_order (ops : NetOps) (a : Agent)
    (exps : List (Option Experience)) (a' : Agent)
    (h : DDPG.learn ops a exps = Except.ok a') :
    a'.critic_local = ops.critic_train a.critic_local
      ((exps.filterMap id).map Experience.state)
      ((exps.filterMap id).map Experience.action)
      (tdTargets a.gamma ((exps.filterMap id).map Experience.reward)
        (qTargetsNext ops a ((exps.filterMap id).map Experience.next_state))
        ((exps.filterMap id).map Experience.done))
    ∧ a'.actor_local = ops.actor_train a.actor_local
        ((exps.filterMap id).map Experience.state)
        (ops.action_gradients a'.critic_local
          ((exps.filterMap id).map Experience.state)
          ((exps.filterMap id).map Experience.action))
    ∧ (DDPG.soft_update a'.critic_local a.critic_target a.tau_critic).map Prod.snd =
        Except.ok a'.critic_target
    ∧ (DDPG.soft_update a'.actor_local a.actor_target a.tau_actor).map Prod.snd =
        Except.ok a'.actor_target := by
  simp only [DDPG.learn] at h
  split at h
  · exact absurd h (by simp)
  · rename_i heq1
    split at h
    · exact absurd h (by simp)
    · rename_i heq2
      cases h
      refine ⟨rfl, rfl, ?_, ?_⟩
      · rw [heq1]; rfl
      · rw [heq2]; rfl

/-- Witness for C5: the concrete `learn` call succeeds and returns the agent
whose fields satisfy the stated ordering equations. -/
theorem learn_update_order_witness :
    cAgent.critic_local = cOps.critic_train cAgent.critic_local
      ((cBatch.filterMap id).map Experience.state)
      ((cBatch.filterMap id).map Experience.action)
      (tdTargets cAgent.gamma ((cBatch.filterMap id).map Experience.reward)
        (qTargetsNext cOps cAgent ((cBatch.filterMap id).map Experience.next_state))
        ((cBatch.filterMap id).map Experience.done))
    ∧ cAgent.actor_local = cOps.actor_train cAgent.actor_local
        ((cBatch.filterMap id).map Experience.state)
        (cOps.action_gradients cAgent.critic_local
          ((cBatch.filterMap id).map Experience.state)
          ((cBatch.filterMap id).map Experience.action))
    ∧ (DDPG.soft_update cAgent.critic_local cAgent.critic_target cAgent.tau_critic).map Prod.snd =
        Except.ok cAgent.critic_target
    ∧ (DDPG.soft_update cAgent.actor_local cAgent.actor_target cAgent.tau_actor).map Prod.snd =
        Except.ok cAgent.actor_target := by
  refine learn_update_order cOps cAgent cBatch cAgent ?_
  norm_num [DDPG.learn, DDPG.soft_update, objAdd, bAdd, smul, set_weights, shapes,
    cOps, cAgent, cBatch, DDPG.init, tdTargets, qTargetsNext, zipWith3, doneBit]

/-! ### C6: step — store then conditionally learn -/

theorem mem_add_of_pos (rb : ReplayBuffer) (e : Experience)
    (hcap : 0 < rb.buffer_size) : e ∈ (rb.add e).memory := by
  simp only [ReplayBuffer.add]
  split
  · rename_i hfull
    have hk : rb.memory.length + 1 - rb.buffer_size ≤ rb.memory.length := by omega
    rw [show (rb.memory ++ [e]).length = rb.memory.length + 1 by simp,
      List.drop_append_of_le_length hk]
    exact List.mem_append_right _ (by simp)
  · exact List.mem_append_right _ (by simp)

/-- **C6.** `step` normalizes both states, unconditionally stores the
transition, and invokes `learn` on one freshly sampled batch exactly when the
post-insertion memory length exceeds `batch_size`; otherwise no learning
occurs and `step` just returns the agent with the extended memory. -/
theorem step_control_flow (ops : NetOps) (a : Agent) (state action : Tensor)
    (reward : ℚ) (next_state : Tensor) (done : Bool) (draws : List ℕ)
    (hcap : 0 < a.memory.buffer_size) :
    (⟨DDPG.preprocess_state a state, action, reward,
        DDPG.preprocess_state a next_state, done⟩ : Experience) ∈
      (a.memory.add ⟨DDPG.preprocess_state a state, action, reward,
        DDPG.preprocess_state a next_state, done⟩).memory
    ∧ (a.batch_size < (a.memory.add ⟨DDPG.preprocess_state a state, action, reward,
          DDPG.preprocess_state a next_state, done⟩).length →
        ∀ exps, (a.memory.add ⟨DDPG.preprocess_state a state, action, reward,
            DDPG.preprocess_state a next_state, done⟩).sample draws = Except.ok exps →
          DDPG.step ops a state action reward next_state done draws =
            DDPG.learn ops
              { a with memory := a.memory.add ⟨DDPG.preprocess_state a state, action,
                  reward, DDPG.preprocess_state a next_state, done⟩ }
              (exps.map some))
    ∧ (¬ a.batch_size < (a.memory.add ⟨DDPG.preprocess_state a state, action, reward,
          DDPG.preprocess_state a next_state, done⟩).length →
        DDPG.step ops a state action reward next_state done draws =
          Except.ok { a with memory := a.memory.add ⟨DDPG.preprocess_state a state,
            action, reward, DDPG.preprocess_state a next_state, done⟩ }) := by
  refine ⟨mem_add_of_pos _ _ hcap, ?_, ?_⟩
  · intro hlen exps hsample
    simp only [DDPG.step, if_pos hlen, hsample]
  · intro hlen
    simp only [DDPG.step, if_neg hlen]

/-- Witness for C6 on a concrete agent whose memory is below the learning
threshold: the transition is stored and no learn call happens. -/
theorem step_control_flow_witness :
    ((⟨DDPG.preprocess_state cAgent [1, 1], [0], 2,
        DDPG.preprocess_state cAgent [1, 1], false⟩ : Experience) ∈
      (cAgent.memory.add ⟨DDPG.preprocess_state cAgent [1, 1], [0], 2,
        DDPG.preprocess_state cAgent [1, 1], false⟩).memory)
    ∧ (DDPG.step cOps cAgent [1, 1] [0] 2 [1, 1] false [] =
        Except.ok { cAgent with
          memory := (cAgent.memory.add ⟨DDPG.preprocess_state cAgent [1, 1], [0], 2, DDPG.preprocess_state cAgent [1, 1], false⟩) }) := by
  have h := step_control_flow cOps cAgent [1, 1] [0] 2 [1, 1] false []
    (by norm_num [cAgent, DDPG.init])
  exact ⟨h.1, h.2.2 (by norm_num [cAgent, DDPG.init, ReplayBuffer.add, ReplayBuffer.length])⟩

/-! ### C7: the sampling precondition (spec-modelled ReplayBuffer) -/

/-- A concrete replay buffer holding exactly `batch_size` transitions. -/
def cRB : ReplayBuffer :=
  { buffer_size := 10, batch_size := 1, memory := [⟨[0], [0], 0, [0], false⟩] }

/-- **C7 counterexample.** The claim says `sample` fails whenever
`length ≤ batch_size`; but per the spec's component contract (§4.1) it only
fails when `length < batch_size`: with `length = batch_size` (here both 1)
`sample` succeeds. -/
theorem sample_at_batch_size_cex :
    cRB.length ≤ cRB.batch_size
    ∧ cRB.sample [0] = Except.ok [⟨[0], [0], 0, [0], false⟩] := by
  constructor
  · decide
  · norm_num [ReplayBuffer.sample, cRB, ReplayBuffer.length, List.range_succ]

/-- **C7 (amended).** `sample` fails with `InsufficientDataError` exactly when
`length < batch_size`; whenever `length ≥ batch_size` — in particular at
`length = batch_size + 1` — it succeeds and returns exactly `batch_size`
transitions. -/
theorem sample_precondition (rb : ReplayBuffer) (draws : List ℕ) :
    (rb.length < rb.batch_size →
      rb.sample draws = Except.error "InsufficientDataError")
    ∧ (rb.batch_size ≤ rb.length →
      (rb.sample draws).map List.length = Except.ok rb.batch_size) := by
  constructor
  · intro hlt
    simp only [ReplayBuffer.sample, if_pos hlt]
  · intro hge
    simp only [ReplayBuffer.sample, if_neg (not_lt.mpr hge), Except.map]
    simp

/-- An empty concrete replay buffer with `batch_size = 1`. -/
def cRBempty : ReplayBuffer := { buffer_size := 10, batch_size := 1, memory := [] }

/-- A concrete replay buffer with `length = batch_size + 1 = 2`. -/
def cRB2 : ReplayBuffer :=
  { buffer_size := 10, batch_size := 1,
    memory := [⟨[0], [0], 0, [0], false⟩, ⟨[1], [1], 1, [1], true⟩] }

/-- Witness for C7 (amended): a buffer with `length = batch_size + 1 = 2`
succeeds and returns one transition; an empty buffer with `batch_size = 1`
fails. -/
theorem sample_precondition_witness :
    cRBempty.sample [0] = Except.error "InsufficientDataError"
    ∧ (cRB2.sample [0]).map List.length = Except.ok 1 := by
  constructor
  · exact (sample_precondition _ [0]).1 (by decide)
  · exact (sample_precondition _ [0]).2 (by decide)

/-! ### C8: shape-mismatch handling in soft_update -/

theorem bAdd_none (a b : Tensor) (hne : a.length ≠ b.length)
    (ha : a.length ≠ 1) (hb : b.length ≠ 1) : bAdd a b = none := by
  rcases a with _ | ⟨x, _ | ⟨x2, xs⟩⟩ <;> rcases b with _ | ⟨y, _ | ⟨y2, ys⟩⟩ <;>
    simp_all [bAdd]

theorem objAdd_none (p q : Params) (i : ℕ) (hip : i < p.length) (hiq : i < q.length)
    (h : bAdd (p.getD i []) (q.getD i []) = none) : objAdd p q = none := by
  induction p generalizing q i with
  | nil => simp at hip
  | cons x xs ih =>
    cases q with
    | nil => simp at hiq
    | cons y ys =>
      cases i with
      | zero =>
        simp only [List.getD_cons_zero] at h
        simp [objAdd, h]
      | succ j =>
        have hrec := ih ys j (by simpa using hip) (by simpa using hiq)
          (by simpa using h)
        cases hb : bAdd x y <;> simp [objAdd, hrec, hb]

/-- **C8 counterexample.** The claim says a pair whose parameter shapes
diverge is always rejected before any target write; but when a local
parameter of size one faces a larger target parameter, numpy broadcasting
makes the interpolation succeed and the target is fully written: here local
shapes `[1]` against target shapes `[2]` produce a successful update. -/
theorem soft_update_shape_cex :
    shapes [[(1 : ℚ)]] ≠ shapes [[(2 : ℚ), 4]]
    ∧ DDPG.soft_update [[(1 : ℚ)]] [[(2 : ℚ), 4]] (1/2) =
        Except.ok ([[(1 : ℚ)]], [[(3/2 : ℚ), 5/2]]) := by
  constructor
  · decide
  · norm_num [DDPG.soft_update, objAdd, bAdd, smul, set_weights, shapes]

/-- **C8 (amended).** `soft_update` aborts before any target write when the
two weight lists have different parameter counts (the assert), and when some
parameter pair's shapes are non-broadcastable (neither equal nor either of
size one, numpy raises during the interpolation); but an equal-count pair
whose mismatched shapes are broadcastable (a size-one parameter against a
larger one) is not rejected — the target is silently written (see the
counterexample). -/
theorem soft_update_mismatch (l t : Params) (tau : ℚ) :
    (l.length ≠ t.length →
      DDPG.soft_update l t tau =
        Except.error "AssertionError: Local and target model parameters must have the same size")
    ∧ (l.length = t.length →
      ∀ i, i < l.length →
        (l.getD i []).length ≠ (t.getD i []).length →
        (l.getD i []).length ≠ 1 → (t.getD i []).length ≠ 1 →
        DDPG.soft_update l t tau =
          Except.error "ValueError: operands could not be broadcast") := by
  constructor
  · intro hne
    simp only [DDPG.soft_update, if_neg hne]
  · intro hc i hi hshape h1 h2
    have hit : i < t.length := hc ▸ hi
    have hnone : objAdd (l.map (smul tau)) (t.map (smul (1 - tau))) = none := by
      refine objAdd_none _ _ i (by simpa using hi) (by simpa using hit) ?_
      rw [getD_map _ _ _ [] [] hi, getD_map _ _ _ [] [] hit]
      refine bAdd_none _ _ ?_ ?_ ?_ <;> simp only [smul, List.length_map] <;> assumption
    simp only [DDPG.soft_update, if_pos hc, hnone]

/-- Witness for C8 (amended): a count mismatch hits the assert; a
non-broadcastable shape mismatch hits the broadcast error. -/
theorem soft_update_mismatch_witness :
    DDPG.soft_update [[(1 : ℚ)]] [] (1/2) =
      Except.error "AssertionError: Local and target model parameters must have the same size"
    ∧ DDPG.soft_update [[(1 : ℚ), 2]] [[(3 : ℚ), 4, 5]] (1/2) =
      Except.error "ValueError: operands could not be broadcast" := by
  constructor
  · exact (soft_update_mismatch [[(1 : ℚ)]] [] (1/2)).1 (by decide)
  · exact (soft_update_mismatch [[(1 : ℚ), 2]] [[(3 : ℚ), 4, 5]] (1/2)).2
      (by decide) 0 (by decide) (by decide) (by decide) (by decide)

/-! ### C9: soft_update never writes the local model -/

/-- **C9.** Whatever weight lists and `tau` it is called with, a successful
`soft_update` returns the local model's weights unchanged in its first
component: only the target model is written. -/
theorem soft_update_frame (l t : Params) (tau : ℚ) (res : Params × Params)
    (h : DDPG.soft_update l t tau = Except.ok res) : res.1 = l := by
  simp only [DDPG.soft_update] at h
  split at h
  · split at h
    · split at h
      · cases h; rfl
      · exact absurd h (by simp)
    · exact absurd h (by simp)
  · exact absurd h (by simp)

/-- Witness for C9 at a concrete successful call. -/
theorem soft_update_frame_witness :
    (([[(1 : ℚ)]], [[(3/2 : ℚ)]]) : Params × Params).1 = [[(1 : ℚ)]] := by
  refine soft_update_frame [[(1 : ℚ)]] [[(2 : ℚ)]] (1/2) ([[(1 : ℚ)]], [[(3/2 : ℚ)]]) ?_
  norm_num [DDPG.soft_update, objAdd, bAdd, smul, set_weights, shapes]

/-! ### C10: target initialization and the soft-update precondition -/

/-- Iterated `learn` calls: fold `learn` over a list of sampled batches,
aborting on the first error. -/
def learnMany (ops : NetOps) : Agent → List (List (Option Experience)) → Except String Agent
  | a, [] => Except.ok a
  | a, b :: bs =>
    match DDPG.learn ops a b with
    | Except.ok a' => learnMany ops a' bs
    | Except.error e => Except.error e

theorem learn_ok_of_match (ops : NetOps) (a : Agent) (b : List (Option Experience))
    (hct : ∀ p S A T, shapes (ops.critic_train p S A T) = shapes p)
    (hat : ∀ p S G, shapes (ops.actor_train p S G) = shapes p)
    (hc : shapes a.critic_local = shapes a.critic_target)
    (ha : shapes a.actor_local = shapes a.actor_target) :
    ∃ a', DDPG.learn ops a b = Except.ok a'
      ∧ shapes a'.critic_local = shapes a'.critic_target
      ∧ shapes a'.actor_local = shapes a'.actor_target := by
  have h1 := soft_update_interp
    (ops.critic_train a.critic_local ((b.filterMap id).map Experience.state)
      ((b.filterMap id).map Experience.action)
      (tdTargets a.gamma ((b.filterMap id).map Experience.reward)
        (qTargetsNext ops a ((b.filterMap id).map Experience.next_state))
        ((b.filterMap id).map Experience.done)))
    a.critic_target a.tau_critic ((hct _ _ _ _).trans hc)
  have h2 := soft_update_interp
    (ops.actor_train a.actor_local ((b.filterMap id).map Experience.state)
      (ops.action_gradients
        (ops.critic_train a.critic_local ((b.filterMap id).map Experience.state)
          ((b.filterMap id).map Experience.action)
          (tdTargets a.gamma ((b.filterMap id).map Experience.reward)
            (qTargetsNext ops a ((b.filterMap id).map Experience.next_state))
            ((b.filterMap id).map Experience.done)))
        ((b.filterMap id).map Experience.state)
        ((b.filterMap id).map Experience.action)))
    a.actor_target a.tau_actor ((hat _ _ _).trans ha)
  cases hL : DDPG.learn ops a b with
  | error e =>
    exfalso
    simp only [DDPG.learn, h1, h2] at hL
    exact Except.noConfusion hL
  | ok a' =>
    refine ⟨a', rfl, ?_⟩
    simp only [DDPG.learn, h1, h2, Except.ok.injEq] at hL
    cases hL
    constructor
    · exact ((hct _ _ _ _).trans hc).trans
        (shapes_interpParams a.tau_critic _ a.critic_target ((hct _ _ _ _).trans hc)).symm
    · exact ((hat _ _ _).trans ha).trans
        (shapes_interpParams a.tau_actor _ a.actor_target ((hat _ _ _).trans ha)).symm

theorem learnMany_ok_of_match (ops : NetOps)
    (hct : ∀ p S A T, shapes (ops.critic_train p S A T) = shapes p)
    (hat : ∀ p S G, shapes (ops.actor_train p S G) = shapes p) :
    ∀ (bs : List (List (Option Experience))) (a : Agent),
      shapes a.critic_local = shapes a.critic_target →
      shapes a.actor_local = shapes a.actor_target →
      ∃ a', learnMany ops a bs = Except.ok a'
        ∧ shapes a'.critic_local = shapes a'.critic_target
        ∧ shapes a'.actor_local = shapes a'.actor_target := by
  intro bs
  induction bs with
  | nil => intro a hc ha; exact ⟨a, rfl, hc, ha⟩
  | cons b bs ih =>
    intro a hc ha
    obtain ⟨a1, h1, hc1, ha1⟩ := learn_ok_of_match ops a b hct hat hc ha
    obtain ⟨a2, h2, hc2, ha2⟩ := ih a1 hc1 ha1
    exact ⟨a2, by simp [learnMany, h1, h2], hc2, ha2⟩

/-- **C10.** Immediately after construction, the target critic's weights equal
the local critic's weights and the target actor's weights equal the local
actor's weights; consequently (for training steps that preserve parameter
shapes, as gradient descent does) every subsequent `learn` call finds
local/target weight lists whose parameter counts and shapes match, all its
soft updates succeed, and the match is preserved from the first `learn`
onward. -/
theorem init_target_sync (sl sh al ah : Tensor) (alw atw0 clw ctw0 : Params)
    (ops : NetOps) (batches : List (List (Option Experience)))
    (hct : ∀ p S A T, shapes (ops.critic_train p S A T) = shapes p)
    (hat : ∀ p S G, shapes (ops.actor_train p S G) = shapes p) :
    (DDPG.init sl sh al ah alw atw0 clw ctw0).critic_target =
      (DDPG.init sl sh al ah alw atw0 clw ctw0).critic_local
    ∧ (DDPG.init sl sh al ah alw atw0 clw ctw0).actor_target =
      (DDPG.init sl sh al ah alw atw0 clw ctw0).actor_local
    ∧ (learnMany ops (DDPG.init sl sh al ah alw atw0 clw ctw0) batches).isOk = true
    ∧ ∀ a', learnMany ops (DDPG.init sl sh al ah alw atw0 clw ctw0) batches = Except.ok a' →
        shapes a'.critic_local = shapes a'.critic_target
        ∧ shapes a'.actor_local = shapes a'.actor_target := by
  obtain ⟨a', h, hc, ha⟩ := learnMany_ok_of_match ops hct hat batches
    (DDPG.init sl sh al ah alw atw0 clw ctw0) rfl rfl
  refine ⟨rfl, rfl, ?_, ?_⟩
  · rw [h]; rfl
  · intro a2 h2
    rw [h] at h2
    cases h2
    exact ⟨hc, ha⟩

/-- Witness for C10 on the concrete agent and one concrete batch. -/
theorem init_target_sync_witness :
    cAgent.critic_target = cAgent.critic_local
    ∧ cAgent.actor_target = cAgent.actor_local
    ∧ (learnMany cOps cAgent [cBatch]).isOk = true
    ∧ (shapes cAgent.critic_local = shapes cAgent.critic_target
        ∧ shapes cAgent.actor_local = shapes cAgent.actor_target) := by
  have h := init_target_sync [0, 0] [2, 2] [-1] [1] [[1, 1]] [[5, 5]] [[3, 3]] [[6, 6]]
    cOps [cBatch] (fun p S A T => rfl) (fun p S G => rfl)
  refine ⟨h.1, h.2.1, h.2.2.1, h.2.2.2 cAgent ?_⟩
  norm_num [learnMany, DDPG.learn, DDPG.soft_update, objAdd, bAdd, smul, set_weights,
    shapes, cOps, cAgent, cBatch, DDPG.init, tdTargets, qTargetsNext, zipWith3, doneBit]

end DDPGSpec
